import Mathlib

/-!
Verification development for the Fitness Tracker (Web Edition) repository.

The repository ships the webcam capture component (`WebcamView.tsx`) together
with a specification of the Exercise Recognition & Repetition Counting Engine.
The engine itself (keypoint filter, joint-angle calculator, exercise
classifier, repetition state machine, form evaluator, session aggregator) is
not present in the source tree, so it is modelled here from the specification;
the capture component is embedded from its TypeScript source.

All numeric quantities (coordinates, angles in degrees, timestamps in
milliseconds, scores) are modelled as rationals.
-/

/-- Exercise types supported by the engine (spec section 3). -/
inductive ExerciseType where
  | Squat
  | Pushup
  | BicepCurl
  | ShoulderPress
  | Unknown
deriving DecidableEq, Repr

/-- Phases of the repetition state machine (spec section 3). -/
inductive RepPhase where
  | Top
  | Bottom
  | InTransition
deriving DecidableEq, Repr

/-- Named body landmarks used by the supported exercises (spec section 4.2). -/
inductive JointName where
  | hip
  | knee
  | ankle
  | shoulder
  | elbow
  | wrist
deriving DecidableEq, Repr

/-- Named derived joint angles, each defined by an ordered keypoint triple
with the vertex in the middle (spec section 4.2): knee = hip-knee-ankle,
elbow = shoulder-elbow-wrist, torso = hip-shoulder-knee,
shoulderJoint = elbow-shoulder-hip. -/
inductive AngleJoint where
  | kneeAngle
  | elbowAngle
  | torsoAngle
  | shoulderJointAngle
deriving DecidableEq, Repr

/-- Stable feedback codes emitted by the form evaluator (spec section 4.5). -/
inductive FeedbackCode where
  | leanForward
  | hipsSagging
deriving DecidableEq, Repr

/-- Feedback severity (spec section 3). -/
inductive Severity where
  | Info
  | Warning
deriving DecidableEq, Repr

/-- One raw landmark observation for one frame (spec section 3). -/
structure Keypoint where
  name : JointName
  x : ℚ
  y : ℚ
  confidence : ℚ
deriving DecidableEq, Repr

/-- One frame of input: the ordered keypoint set plus the capture timestamp
in milliseconds (spec section 3). -/
structure Pose where
  keypoints : List Keypoint
  timestampMs : ℚ
deriving DecidableEq, Repr

/-- A derived joint angle with its confidence, which is the minimum
confidence of its three constituent keypoints (spec section 4.2). -/
structure JointAngle where
  degrees : ℚ
  confidence : ℚ
deriving DecidableEq, Repr

/-- A form-feedback event (spec section 3). -/
structure FeedbackEvent where
  code : FeedbackCode
  severity : Severity
  message : String
  timestampMs : ℚ
deriving DecidableEq, Repr

/-- Per-exercise hysteresis thresholds of the repetition state machine
(spec section 4.4), with enterTopAbove above enterBottomBelow by a
configured gap. -/
structure RepThresholds where
  enterBottomBelow : ℚ
  enterTopAbove : ℚ
deriving DecidableEq, Repr

/-- Per-exercise repetition counter state (spec section 3). -/
structure RepCounterState where
  phase : RepPhase
  count : ℕ
  lastPhaseChangeMs : ℚ
deriving DecidableEq, Repr

/-- Modelled from the spec: the engine configuration surface
(spec section 6) — confidence threshold, smoothing alpha, the
confidence-decay factor for held keypoints, classifier window size and
majority fraction, the classifier minimum score, per-exercise phase
thresholds, dwell time, feedback cooldown, feedback-log bound, and the
score falloff for angles outside an exercise signature band. -/
structure EngineConfig where
  confThreshold : ℚ
  alpha : ℚ
  confDecay : ℚ
  windowSize : ℕ
  majorityFrac : ℚ
  minScore : ℚ
  thresholds : ExerciseType → RepThresholds
  dwellMs : ℚ
  cooldownMs : ℚ
  maxLog : ℕ
  bandFalloff : ℚ
  squatLeanBelow : ℚ
  pushupStraightBelow : ℚ

/-- Modelled from the spec: per-exercise hysteresis thresholds; the squat
values are the spec's worked example (enter Bottom below 100 degrees,
enter Top above 160 degrees), the rest follow the signature ranges of
spec section 4.3. -/
def defaultThresholds : ExerciseType → RepThresholds
  | ExerciseType.Squat => ⟨100, 160⟩
  | ExerciseType.Pushup => ⟨90, 160⟩
  | ExerciseType.BicepCurl => ⟨50, 150⟩
  | ExerciseType.ShoulderPress => ⟨100, 160⟩
  | ExerciseType.Unknown => ⟨0, 0⟩

/-- Modelled from the spec: the stated numeric defaults — keypoint
confidence threshold 0.3, smoothing alpha 0.5, classifier window 10 frames
with 60 percent majority, dwell time 150 ms, feedback cooldown 2000 ms. -/
def defaultConfig : EngineConfig where
  confThreshold := mkRat 3 10
  alpha := mkRat 1 2
  confDecay := mkRat 9 10
  windowSize := 10
  majorityFrac := mkRat 3 5
  minScore := mkRat 1 2
  thresholds := defaultThresholds
  dwellMs := 150
  cooldownMs := 2000
  maxLog := 50
  bandFalloff := 50
  squatLeanBelow := 150
  pushupStraightBelow := 160

/-- One frame of input to a repetition state machine: the tracked angle in
degrees, whether that angle met the confidence threshold, and the frame
timestamp in milliseconds. -/
structure RepFrame where
  angleDeg : ℚ
  angleOk : Bool
  timeMs : ℚ
deriving DecidableEq, Repr

/-- Modelled from the spec: one step of the repetition state machine
(spec section 4.4). A low-confidence angle freezes the machine; a
transition is honored only after the minimum dwell time in the current
state (timed from lastPhaseChangeMs); from Top the machine moves to Bottom
once the angle drops below enterBottomBelow; from Bottom it moves to Top
and increments count once the angle rises above enterTopAbove. -/
def repStep (cfg : EngineConfig) (th : RepThresholds) (s : RepCounterState)
    (f : RepFrame) : RepCounterState :=
  if f.angleOk = false then s
  else if f.timeMs - s.lastPhaseChangeMs < cfg.dwellMs then s
  else
    match s.phase with
    | RepPhase.Top =>
        if f.angleDeg < th.enterBottomBelow then
          { phase := RepPhase.Bottom, count := s.count, lastPhaseChangeMs := f.timeMs }
        else s
    | RepPhase.Bottom =>
        if th.enterTopAbove < f.angleDeg then
          { phase := RepPhase.Top, count := s.count + 1, lastPhaseChangeMs := f.timeMs }
        else s
    | RepPhase.InTransition => s

/-- Run the repetition state machine over a frame sequence. -/
def runRep (cfg : EngineConfig) (th : RepThresholds) (s : RepCounterState) :
    List RepFrame → RepCounterState
  | [] => s
  | f :: fs => runRep cfg th (repStep cfg th s f) fs

/-- Number of Bottom-to-Top phase transitions taken by the machine along a
frame sequence. -/
def countBottomToTop (cfg : EngineConfig) (th : RepThresholds)
    (s : RepCounterState) : List RepFrame → ℕ
  | [] => 0
  | f :: fs =>
      let s' := repStep cfg th s f
      (if s.phase = RepPhase.Bottom ∧ s'.phase = RepPhase.Top then 1 else 0)
        + countBottomToTop cfg th s' fs

/-- Per-keypoint filter memory: the previously smoothed coordinates and the
confidence last attached to them (spec section 4.1). -/
structure FilterEntry where
  x : ℚ
  y : ℚ
  conf : ℚ
deriving DecidableEq, Repr

/-- Filter state: the persisted entry per keypoint name. -/
def FilterState : Type := JointName → Option FilterEntry

/-- Modelled from the spec: the keypoint filter for one keypoint
(spec section 4.1 and section 7 case 1). A keypoint whose confidence is
below the threshold is held at the last known smoothed value with its
confidence decayed; otherwise the exponential smoothing
alpha * raw + (1 - alpha) * previousSmoothed is applied per coordinate.
On the first observation of a name there is no previous value and the raw
keypoint seeds the state. Returns the filtered keypoint and the new entry. -/
def filterKeypoint (cfg : EngineConfig) (st : FilterState) (k : Keypoint) :
    Keypoint × FilterEntry :=
  match st k.name with
  | none => (k, ⟨k.x, k.y, k.confidence⟩)
  | some prev =>
      if k.confidence < cfg.confThreshold then
        let held : ℚ := prev.conf * cfg.confDecay
        (⟨k.name, prev.x, prev.y, held⟩, ⟨prev.x, prev.y, held⟩)
      else
        let sx : ℚ := cfg.alpha * k.x + (1 - cfg.alpha) * prev.x
        let sy : ℚ := cfg.alpha * k.y + (1 - cfg.alpha) * prev.y
        (⟨k.name, sx, sy, k.confidence⟩, ⟨sx, sy, k.confidence⟩)

/-- Apply the keypoint filter to a whole pose, threading the filter state. -/
def filterPose (cfg : EngineConfig) (st : FilterState) :
    List Keypoint → FilterState × List Keypoint
  | [] => (st, [])
  | k :: ks =>
      let r := filterKeypoint cfg st k
      let st' : FilterState := fun n => if n = k.name then some r.2 else st n
      let rest := filterPose cfg st' ks
      (rest.1, r.1 :: rest.2)

/-- The ordered keypoint triple (vertex in the middle) defining each named
angle (spec section 4.2). -/
def angleTriple : AngleJoint → JointName × JointName × JointName
  | AngleJoint.kneeAngle => (JointName.hip, JointName.knee, JointName.ankle)
  | AngleJoint.elbowAngle => (JointName.shoulder, JointName.elbow, JointName.wrist)
  | AngleJoint.torsoAngle => (JointName.hip, JointName.shoulder, JointName.knee)
  | AngleJoint.shoulderJointAngle => (JointName.elbow, JointName.shoulder, JointName.hip)

/-- Find the first keypoint with the given name. -/
def lookupKeypoint (ks : List Keypoint) (n : JointName) : Option Keypoint :=
  ks.find? (fun k => k.name = n)

/-- Modelled from the spec: the joint angle calculator (spec section 4.2),
parametrized by the pure planar interior-angle kernel angleFn (the
dot-product/arctangent formula mapped to the range 0 to 180, which is
transcendental and therefore kept abstract). The confidence of a derived
angle is the minimum confidence of its three constituent keypoints; an
angle with a missing keypoint is produced with confidence 0 rather than
raising an error. -/
def computeAngle (angleFn : ℚ × ℚ → ℚ × ℚ → ℚ × ℚ → ℚ) (ks : List Keypoint)
    (j : AngleJoint) : JointAngle :=
  let t := angleTriple j
  match lookupKeypoint ks t.1, lookupKeypoint ks t.2.1, lookupKeypoint ks t.2.2 with
  | some a, some b, some c =>
      ⟨angleFn (a.x, a.y) (b.x, b.y) (c.x, c.y),
       min a.confidence (min b.confidence c.confidence)⟩
  | _, _, _ => ⟨0, 0⟩

/-- Whether a derived angle meets the confidence threshold
(spec section 4.2: angles below threshold are marked invalid but still
produced). -/
def angleValid (cfg : EngineConfig) (a : JointAngle) : Bool :=
  cfg.confThreshold ≤ a.confidence

/-- Modelled from the spec: the characteristic active-range bands of each
exercise signature (spec section 4.3), as (angle, low, high) triples. The
squat and bicep-curl bands are the spec's examples. -/
def signatureBands : ExerciseType → List (AngleJoint × ℚ × ℚ)
  | ExerciseType.Squat => [(AngleJoint.kneeAngle, 70, 170)]
  | ExerciseType.Pushup =>
      [(AngleJoint.elbowAngle, 70, 160), (AngleJoint.torsoAngle, 160, 180)]
  | ExerciseType.BicepCurl => [(AngleJoint.elbowAngle, 30, 160)]
  | ExerciseType.ShoulderPress =>
      [(AngleJoint.shoulderJointAngle, 60, 170), (AngleJoint.elbowAngle, 60, 170)]
  | ExerciseType.Unknown => []

/-- Modelled from the spec: the contribution of one angle to a match score —
full score inside the band, linearly falling off with distance outside it. -/
def bandScore (cfg : EngineConfig) (deg lo hi : ℚ) : ℚ :=
  if lo ≤ deg ∧ deg ≤ hi then 1
  else if deg < lo then max 0 (1 - (lo - deg) / cfg.bandFalloff)
  else max 0 (1 - (deg - hi) / cfg.bandFalloff)

/-- Modelled from the spec: the match score of one candidate exercise — a
weighted sum over its signature angles, where an invalid angle contributes
nothing (spec section 4.3). -/
def matchScore (cfg : EngineConfig) (angs : AngleJoint → JointAngle)
    (e : ExerciseType) : ℚ :=
  (signatureBands e).foldl
    (fun acc b =>
      acc + (if angleValid cfg (angs b.1) then bandScore cfg (angs b.1).degrees b.2.1 b.2.2 else 0))
    0

/-- The candidate exercises, in a fixed order. -/
def candidateExercises : List ExerciseType :=
  [ExerciseType.Squat, ExerciseType.Pushup, ExerciseType.BicepCurl,
   ExerciseType.ShoulderPress]

/-- Modelled from the spec: the instantaneous classification — the
highest-scoring candidate wins if its score exceeds the minimum-confidence
threshold, otherwise the result is Unknown (spec section 4.3). -/
def classifyInstant (cfg : EngineConfig) (angs : AngleJoint → JointAngle) :
    ExerciseType :=
  let best := candidateExercises.foldl
    (fun acc e =>
      let sc := matchScore cfg angs e
      if acc.2 < sc then (e, sc) else acc)
    (ExerciseType.Unknown, 0)
  if cfg.minScore < best.2 then best.1 else ExerciseType.Unknown

/-- Modelled from the spec: temporal smoothing of the classification over a
sliding window (spec section 4.3) — the instantaneous winner is pushed
into the bounded history and currentExercise is switched to it only when
it has been the top choice for at least the majority fraction of the
window. Returns the new history and the new currentExercise. -/
def smoothStep (cfg : EngineConfig) (hist : List ExerciseType)
    (cur instant : ExerciseType) : List ExerciseType × ExerciseType :=
  let hist' := (instant :: hist).take cfg.windowSize
  let cur' :=
    if instant ≠ cur ∧ cfg.majorityFrac * (cfg.windowSize : ℚ) ≤ (hist'.count instant : ℚ)
    then instant else cur
  (hist', cur')

/-- The angle tracked by each exercise's repetition state machine
(spec sections 4.2 and 4.4): knee for squat, elbow for the arm/press
exercises. -/
def trackedJoint : ExerciseType → AngleJoint
  | ExerciseType.Squat => AngleJoint.kneeAngle
  | ExerciseType.Pushup => AngleJoint.elbowAngle
  | ExerciseType.BicepCurl => AngleJoint.elbowAngle
  | ExerciseType.ShoulderPress => AngleJoint.elbowAngle
  | ExerciseType.Unknown => AngleJoint.kneeAngle

/-- Modelled from the spec: the exercise-specific form rules
(spec section 4.5) — the violated codes for the current frame. Rules are
skipped when the required angle confidence is insufficient. -/
def formViolations (cfg : EngineConfig) (e : ExerciseType)
    (angs : AngleJoint → JointAngle) : List FeedbackCode :=
  match e with
  | ExerciseType.Squat =>
      if angleValid cfg (angs AngleJoint.torsoAngle)
          ∧ (angs AngleJoint.torsoAngle).degrees < cfg.squatLeanBelow
      then [FeedbackCode.leanForward] else []
  | ExerciseType.Pushup =>
      if angleValid cfg (angs AngleJoint.torsoAngle)
          ∧ (angs AngleJoint.torsoAngle).degrees < cfg.pushupStraightBelow
      then [FeedbackCode.hipsSagging] else []
  | _ => []

/-- The human-readable message attached to a feedback code. -/
def feedbackMessage : FeedbackCode → String
  | FeedbackCode.leanForward => "leaning too far forward"
  | FeedbackCode.hipsSagging => "hips sagging"

/-- Per-code timestamps of the last emission, for rate limiting. -/
def EmitState : Type := FeedbackCode → Option ℚ

/-- Modelled from the spec: the form evaluator (spec section 4.5) — each
violated rule emits one Warning event with a stable code, rate-limited so
a code is not re-emitted within the cooldown window. Returns the new
emission state and the events emitted this frame. -/
def formEval (cfg : EngineConfig) (e : ExerciseType)
    (angs : AngleJoint → JointAngle) (nowMs : ℚ) (le : EmitState) :
    EmitState × List FeedbackEvent :=
  (formViolations cfg e angs).foldl
    (fun acc c =>
      let allowed := match acc.1 c with
        | none => true
        | some t => decide (cfg.cooldownMs ≤ nowMs - t)
      if allowed then
        ((fun c' => if c' = c then some nowMs else acc.1 c'),
         acc.2 ++ [⟨c, Severity.Warning, feedbackMessage c, nowMs⟩])
      else acc)
    (le, [])

/-- Session-wide mutable state owned by the session aggregator
(spec sections 3 and 4.6). -/
structure SessionState where
  currentExercise : ExerciseType
  counters : ExerciseType → RepCounterState
  classifierHistory : List ExerciseType
  filterState : FilterState
  lastEmit : EmitState
  feedbackLog : List FeedbackEvent

/-- The per-frame snapshot returned to the caller (spec section 4.6). -/
structure Snapshot where
  currentExercise : ExerciseType
  counts : ExerciseType → ℕ
  newFeedback : List FeedbackEvent

/-- The fresh session: Unknown exercise, all counters at zero in phase Top,
empty classifier history, empty filter and emission state, empty log. -/
def initialSession : SessionState where
  currentExercise := ExerciseType.Unknown
  counters := fun _ => ⟨RepPhase.Top, 0, 0⟩
  classifierHistory := []
  filterState := fun _ => none
  lastEmit := fun _ => none
  feedbackLog := []

/-- Modelled from the spec: reset() clears all counters, phases, classifier
history, filter state and feedback state (spec section 4.6), regardless of
the session state it is applied to. -/
def resetSession (_s : SessionState) : SessionState := initialSession

/-- Modelled from the spec: the session aggregator processing one pose
(spec sections 2 and 4.6): filter, angle calculation, instantaneous
classification, temporal smoothing; then — unless the frame classified as
Unknown or the smoothed current exercise is Unknown, in which case
counters freeze and the form evaluator is skipped (spec sections 3 and 7
case 3) — the current exercise's repetition state machine is stepped and
the form evaluator run. Returns the new state and the frame snapshot. -/
def processFrame (angleFn : ℚ × ℚ → ℚ × ℚ → ℚ × ℚ → ℚ) (cfg : EngineConfig)
    (s : SessionState) (p : Pose) : SessionState × Snapshot :=
  let fr := filterPose cfg s.filterState p.keypoints
  let angs : AngleJoint → JointAngle := fun j => computeAngle angleFn fr.2 j
  let instant := classifyInstant cfg angs
  let sm := smoothStep cfg s.classifierHistory s.currentExercise instant
  if instant = ExerciseType.Unknown ∨ sm.2 = ExerciseType.Unknown then
    ({ s with
        currentExercise := sm.2
        classifierHistory := sm.1
        filterState := fr.1 },
     ⟨sm.2, fun e => (s.counters e).count, []⟩)
  else
    let cur := sm.2
    let ta := angs (trackedJoint cur)
    let rc' := repStep cfg (cfg.thresholds cur) (s.counters cur)
      ⟨ta.degrees, angleValid cfg ta, p.timestampMs⟩
    let counters' : ExerciseType → RepCounterState :=
      fun e => if e = cur then rc' else s.counters e
    let fe := formEval cfg cur angs p.timestampMs s.lastEmit
    ({ currentExercise := cur
       counters := counters'
       classifierHistory := sm.1
       filterState := fr.1
       lastEmit := fe.1
       feedbackLog := (fe.2 ++ s.feedbackLog).take cfg.maxLog },
     ⟨cur, fun e => (counters' e).count, fe.2⟩)

/-- Run the session aggregator over a pose sequence, collecting the
per-frame snapshots. -/
def runSession (angleFn : ℚ × ℚ → ℚ × ℚ → ℚ × ℚ → ℚ) (cfg : EngineConfig)
    (s : SessionState) : List Pose → SessionState × List Snapshot
  | [] => (s, [])
  | p :: ps =>
      let r := processFrame angleFn cfg s p
      let rest := runSession angleFn cfg r.1 ps
      (rest.1, r.2 :: rest.2)

/-- The sequence of feedback codes of a snapshot list. -/
def feedbackCodes (snaps : List Snapshot) : List (List FeedbackCode) :=
  snaps.map (fun sn => sn.newFeedback.map (fun ev => ev.code))

/-- The target frame spacing of the capture loop in milliseconds
(WebcamView.tsx line 95: frameDuration = 1000 / 30). -/
def frameDuration : ℚ := 1000 / 30

/-- The environment one invocation of captureFrame runs in: whether
videoRef.current, canvasRef.current and the 2d context are non-null,
whether drawImage/getImageData throws, and the animation-frame
timestamp. -/
structure FrameEnv where
  videoPresent : Bool
  canvasPresent : Bool
  ctxAvailable : Bool
  drawThrows : Bool
  timestamp : ℚ
deriving DecidableEq, Repr

/-- The observable outcome of one captureFrame invocation: whether onFrame
was called, whether requestAnimationFrame was scheduled again, and the new
lastFrameTime. -/
structure CaptureOutcome where
  onFrameCalled : Bool
  rescheduled : Bool
  lastFrameTime : ℚ
deriving DecidableEq, Repr

/-- One invocation of captureFrame (WebcamView.tsx lines 97-117): return
early when a ref is null; when the frame-rate gate passes, update
lastFrameTime, return early when the 2d context is null, otherwise draw
and call onFrame inside a try/catch; finally schedule the next animation
frame. -/
def captureFrameStep (last : ℚ) (env : FrameEnv) : CaptureOutcome :=
  if env.videoPresent = false ∨ env.canvasPresent = false then
    ⟨false, false, last⟩
  else if frameDuration ≤ env.timestamp - last then
    if env.ctxAvailable = false then ⟨false, false, env.timestamp⟩
    else if env.drawThrows then ⟨false, true, env.timestamp⟩
    else ⟨true, true, env.timestamp⟩
  else ⟨false, true, last⟩

/-- Run the capture loop from a given lastFrameTime over a sequence of
animation-frame environments, stopping when no further frame is scheduled,
and collect the timestamps at which onFrame was invoked. -/
def runCapture (last : ℚ) : List FrameEnv → List ℚ
  | [] => []
  | env :: envs =>
      let r := captureFrameStep last env
      let rest := if r.rescheduled then runCapture r.lastFrameTime envs else []
      if r.onFrameCalled then env.timestamp :: rest else rest

/-- The component state touched by camera setup (WebcamView.tsx lines
27-30): hasPermission is a nullable boolean, mirroring the Option. -/
structure CamState where
  hasPermission : Option Bool
  isLoading : Bool
  videoSrcSet : Bool
deriving DecidableEq, Repr

/-- One run of setupCamera (WebcamView.tsx lines 36-65): return
immediately when the camera is not active; otherwise set loading and clear
the permission status, then await getUserMedia — on success attach the
stream to the video element when present (loading and permission are
settled later by onloadedmetadata), on rejection catch the error and set
hasPermission to false and isLoading to false. The function is total: no
exception escapes it. -/
def setupCamera (isCameraActive : Bool) (gum : Except String Unit)
    (videoPresent : Bool) (st : CamState) : CamState :=
  if isCameraActive = false then st
  else
    let st1 : CamState := { st with isLoading := true, hasPermission := none }
    match gum with
    | Except.error _ => { st1 with hasPermission := some false, isLoading := false }
    | Except.ok _ =>
        if videoPresent then { st1 with videoSrcSet := true } else st1

/-- The guard of the frame-capture effect (WebcamView.tsx line 85): capture
runs only when the camera is active, permission is truthy (some true),
an onFrame handler is provided and both refs are non-null. -/
def captureEffectActive (isCameraActive : Bool) (st : CamState)
    (onFramePresent videoPresent canvasPresent : Bool) : Bool :=
  isCameraActive && (st.hasPermission = some true : Bool)
    && onFramePresent && videoPresent && canvasPresent

/-- The onFrame invocation timestamps produced by one mounting of the
capture effect: none at all unless the effect guard passes. -/
def framesDelivered (isCameraActive : Bool) (st : CamState)
    (onFramePresent videoPresent canvasPresent : Bool)
    (envs : List FrameEnv) : List ℚ :=
  if captureEffectActive isCameraActive st onFramePresent videoPresent canvasPresent
  then runCapture 0 envs else []

/-- A concrete angle kernel used to instantiate the abstract planar-angle
parameter in examples: a constant 90 degrees. -/
def constAngle : ℚ × ℚ → ℚ × ℚ → ℚ × ℚ → ℚ := fun _ _ _ => 90

/-- A concrete pose in which every keypoint confidence is 0.1, below the
default threshold of 0.3 (the spec's low-confidence scenario). -/
def lowConfPose : Pose where
  keypoints :=
    [⟨JointName.hip, 1, 1, mkRat 1 10⟩, ⟨JointName.knee, 2, 2, mkRat 1 10⟩,
     ⟨JointName.ankle, 3, 3, mkRat 1 10⟩, ⟨JointName.shoulder, 4, 4, mkRat 1 10⟩,
     ⟨JointName.elbow, 5, 5, mkRat 1 10⟩, ⟨JointName.wrist, 6, 6, mkRat 1 10⟩]
  timestampMs := 1000

/-- A concrete bounce sequence for the squat machine: the knee angle
crosses enterBottomBelow (95 below 100) at t = 200 ms and returns above it
(170) at t = 250 ms, 50 ms later — inside the 150 ms dwell window. -/
def bounceFrames : List RepFrame := [⟨95, true, 200⟩, ⟨170, true, 250⟩]

/-- A concrete filter state holding a previous smoothed knee entry at the
origin with confidence 1. -/
def kneeFilterState : FilterState :=
  fun n => if n = JointName.knee then some ⟨0, 0, 1⟩ else none

/-- A concrete ten-frame classifier history: six squat votes then four
pushup votes. -/
def squatHeavyHistory : List ExerciseType :=
  List.replicate 6 ExerciseType.Squat ++ List.replicate 4 ExerciseType.Pushup

theorem repStep_count_eq (cfg : EngineConfig) (th : RepThresholds)
    (s : RepCounterState) (f : RepFrame) :
    (repStep cfg th s f).count =
      s.count + (if s.phase = RepPhase.Bottom ∧ (repStep cfg th s f).phase = RepPhase.Top
                 then 1 else 0) := by
  rcases s with ⟨ph, c, l⟩
  cases ph <;> simp only [repStep] <;> split_ifs <;> simp_all

theorem repStep_count_le (cfg : EngineConfig) (th : RepThresholds)
    (s : RepCounterState) (f : RepFrame) :
    s.count ≤ (repStep cfg th s f).count := by
  rw [repStep_count_eq cfg th s f]
  split <;> omega

/-- C1: For every exercise's repetition state machine, the count is
incremented by exactly 1 on each Bottom-to-Top transition and on no other
transition: over any input frame sequence the final count equals the
initial count plus the number of Bottom-to-Top phase transitions taken, so
the count increases by at most one per full down-and-up cycle. -/
theorem rep_count_increments_exactly_on_bottom_to_top
    (cfg : EngineConfig) (th : RepThresholds) (s : RepCounterState)
    (L : List RepFrame) :
    (runRep cfg th s L).count = s.count + countBottomToTop cfg th s L := by
  induction L generalizing s with
  | nil => rfl
  | cons f fs ih =>
      simp only [runRep, countBottomToTop]
      rw [ih (repStep cfg th s f)]
      have h := repStep_count_eq cfg th s f
      omega

theorem processFrame_count_le (angleFn : ℚ × ℚ → ℚ × ℚ → ℚ × ℚ → ℚ)
    (cfg : EngineConfig) (s : SessionState) (p : Pose) (e : ExerciseType) :
    (s.counters e).count ≤ ((processFrame angleFn cfg s p).1.counters e).count := by
  simp only [processFrame]
  split
  · exact le_refl _
  · simp only []
    by_cases he : e = (smoothStep cfg s.classifierHistory s.currentExercise
        (classifyInstant cfg (fun j =>
          computeAngle angleFn (filterPose cfg s.filterState p.keypoints).2 j))).2
    · simp only [he, if_pos rfl]
      exact repStep_count_le _ _ _ _
    · simp only [if_neg he]
      exact le_refl _

theorem runSession_count_le (angleFn : ℚ × ℚ → ℚ × ℚ → ℚ × ℚ → ℚ)
    (cfg : EngineConfig) (s : SessionState) (L : List Pose) (e : ExerciseType) :
    (s.counters e).count ≤ ((runSession angleFn cfg s L).1.counters e).count := by
  induction L generalizing s with
  | nil => exact le_refl _
  | cons p ps ih =>
      exact le_trans (processFrame_count_le angleFn cfg s p e)
        (ih (processFrame angleFn cfg s p).1)

/-- C2: For every session and every exercise, the repetition count is
non-decreasing across every processed frame (and hence across every run of
frames) between resets, and only resetSession lowers it, to zero. -/
theorem session_count_monotone_and_reset_zero
    (angleFn : ℚ × ℚ → ℚ × ℚ → ℚ × ℚ → ℚ) (cfg : EngineConfig)
    (s : SessionState) (p : Pose) (L : List Pose) (e : ExerciseType) :
    (s.counters e).count ≤ ((processFrame angleFn cfg s p).1.counters e).count
    ∧ (s.counters e).count ≤ ((runSession angleFn cfg s L).1.counters e).count
    ∧ ((resetSession s).counters e).count = 0 :=
  ⟨processFrame_count_le angleFn cfg s p e,
   runSession_count_le angleFn cfg s L e, rfl⟩

/-- C4: Processing the same pose sequence from a freshly reset session
twice yields identical per-exercise counts — final and per-frame — and the
identical sequence of feedback codes, whatever the states the two sessions
were in before their reset. -/
theorem session_fresh_run_deterministic
    (angleFn : ℚ × ℚ → ℚ × ℚ → ℚ × ℚ → ℚ) (cfg : EngineConfig)
    (s1 s2 : SessionState) (L : List Pose) :
    (∀ e, ((runSession angleFn cfg (resetSession s1) L).1.counters e).count
        = ((runSession angleFn cfg (resetSession s2) L).1.counters e).count)
    ∧ (∀ e, ((runSession angleFn cfg (resetSession s1) L).2.map (fun sn => sn.counts e))
        = ((runSession angleFn cfg (resetSession s2) L).2.map (fun sn => sn.counts e)))
    ∧ feedbackCodes (runSession angleFn cfg (resetSession s1) L).2
        = feedbackCodes (runSession angleFn cfg (resetSession s2) L).2 :=
  ⟨fun _ => rfl, fun _ => rfl, rfl⟩

/-- C6: Whenever the instantaneous classifier result for a frame is
Unknown, processing that frame changes no counter (so no repetition state
machine receives a phase update) and emits no feedback events. -/
theorem unknown_result_freezes_counters
    (angleFn : ℚ × ℚ → ℚ × ℚ → ℚ × ℚ → ℚ) (cfg : EngineConfig)
    (s : SessionState) (p : Pose)
    (h : classifyInstant cfg (fun j =>
        computeAngle angleFn (filterPose cfg s.filterState p.keypoints).2 j)
      = ExerciseType.Unknown) :
    (∀ e, (processFrame angleFn cfg s p).1.counters e = s.counters e)
    ∧ (processFrame angleFn cfg s p).2.newFeedback = []
    ∧ (processFrame angleFn cfg s p).1.feedbackLog = s.feedbackLog := by
  simp only [processFrame]
  rw [if_pos (Or.inl h)]
  exact ⟨fun _ => rfl, rfl, rfl⟩

theorem unknown_result_freezes_counters_witness :
    (processFrame constAngle defaultConfig initialSession lowConfPose).2.newFeedback = []
    ∧ (processFrame constAngle defaultConfig initialSession
        lowConfPose).1.counters ExerciseType.Squat
      = initialSession.counters ExerciseType.Squat :=
  ⟨(unknown_result_freezes_counters constAngle defaultConfig initialSession
      lowConfPose (by with_unfolding_all decide)).2.1,
   (unknown_result_freezes_counters constAngle defaultConfig initialSession
      lowConfPose (by with_unfolding_all decide)).1 ExerciseType.Squat⟩

theorem repStep_cases (cfg : EngineConfig) (th : RepThresholds)
    (s : RepCounterState) (f : RepFrame) :
    repStep cfg th s f = s
    ∨ (s.phase = RepPhase.Top ∧ f.angleDeg < th.enterBottomBelow
        ∧ repStep cfg th s f = ⟨RepPhase.Bottom, s.count, f.timeMs⟩
        ∧ cfg.dwellMs ≤ f.timeMs - s.lastPhaseChangeMs)
    ∨ (s.phase = RepPhase.Bottom ∧ th.enterTopAbove < f.angleDeg
        ∧ repStep cfg th s f = ⟨RepPhase.Top, s.count + 1, f.timeMs⟩
        ∧ cfg.dwellMs ≤ f.timeMs - s.lastPhaseChangeMs) := by
  rcases s with ⟨ph, c, l⟩
  cases ph <;> simp only [repStep] <;> split_ifs <;> simp_all

theorem runRep_count_frozen_window (cfg : EngineConfig) (th : RepThresholds)
    (tc : ℚ) (c0 : ℕ) (L : List RepFrame) :
    ∀ s : RepCounterState,
      (∀ f ∈ L, f.angleDeg < th.enterBottomBelow → tc ≤ f.timeMs) →
      (∀ f ∈ L, f.timeMs < tc + cfg.dwellMs) →
      s.count = c0 →
      (s.phase = RepPhase.Top
        ∨ (s.phase = RepPhase.Bottom ∧ tc ≤ s.lastPhaseChangeMs)) →
      (runRep cfg th s L).count = c0 := by
  induction L with
  | nil => intro s _ _ hc _; exact hc
  | cons f fs ih =>
      intro s hcross hwin hc hinv
      have hcross' : ∀ g ∈ fs, g.angleDeg < th.enterBottomBelow → tc ≤ g.timeMs :=
        fun g hg => hcross g (List.mem_cons_of_mem f hg)
      have hwin' : ∀ g ∈ fs, g.timeMs < tc + cfg.dwellMs :=
        fun g hg => hwin g (List.mem_cons_of_mem f hg)
      have hfwin : f.timeMs < tc + cfg.dwellMs := hwin f (List.mem_cons_self f fs)
      simp only [runRep]
      rcases repStep_cases cfg th s f with heq | ⟨hph, hangle, heq, _⟩
        | ⟨hph, _, _, hdwell⟩
      · rw [heq]; exact ih s hcross' hwin' hc hinv
      · rw [heq]
        exact ih _ hcross' hwin' hc
          (Or.inr ⟨rfl, hcross f (List.mem_cons_self f fs) hangle⟩)
      · rcases hinv with hTop | ⟨hBot, htc⟩
        · rw [hph] at hTop; exact absurd hTop (by simp)
        · exact absurd hfwin (by push_neg; linarith)

/-- C3 (counterexample): the claim that a crossing of enterBottomBelow
bounced back above it inside the dwell window leaves the machine in its
current phase is false as stated: in the concrete squat bounce sequence
(angle 95 below the 100 threshold at t = 200 ms, back to 170 at
t = 250 ms, 50 ms later and inside the 150 ms dwell window) the machine
starting in Top has left Top for Bottom. -/
theorem rep_bounce_phase_changes_cex :
    (95 : ℚ) < (defaultConfig.thresholds ExerciseType.Squat).enterBottomBelow
    ∧ (defaultConfig.thresholds ExerciseType.Squat).enterBottomBelow < 170
    ∧ (250 : ℚ) - 200 < defaultConfig.dwellMs
    ∧ (runRep defaultConfig (defaultConfig.thresholds ExerciseType.Squat)
        ⟨RepPhase.Top, 0, 0⟩ bounceFrames).phase = RepPhase.Bottom := by
  with_unfolding_all decide

/-- C3 (amended): for every angle sequence in which every crossing below
enterBottomBelow happens no earlier than some time tc and the whole
sequence ends within the dwell window after tc, a machine starting in
phase Top never increments its count (the phase itself may move from Top
to Bottom once the dwell in Top has elapsed). -/
theorem rep_bounce_zero_increments (cfg : EngineConfig) (th : RepThresholds)
    (c0 : ℕ) (t0 tc : ℚ) (L : List RepFrame)
    (hcross : ∀ f ∈ L, f.angleDeg < th.enterBottomBelow → tc ≤ f.timeMs)
    (hwin : ∀ f ∈ L, f.timeMs < tc + cfg.dwellMs) :
    (runRep cfg th ⟨RepPhase.Top, c0, t0⟩ L).count = c0 :=
  runRep_count_frozen_window cfg th tc c0 L ⟨RepPhase.Top, c0, t0⟩
    hcross hwin rfl (Or.inl rfl)

theorem rep_bounce_zero_increments_witness :
    (runRep defaultConfig (defaultConfig.thresholds ExerciseType.Squat)
      ⟨RepPhase.Top, 0, 0⟩ bounceFrames).count = 0 :=
  rep_bounce_zero_increments defaultConfig
    (defaultConfig.thresholds ExerciseType.Squat) 0 0 200 bounceFrames
    (by with_unfolding_all decide) (by with_unfolding_all decide)

theorem count_pair_le (a b : ExerciseType) (hab : a ≠ b)
    (l : List ExerciseType) : l.count a + l.count b ≤ l.length := by
  induction l with
  | nil => simp
  | cons x xs ih =>
      simp only [List.count_cons, List.length_cons, beq_iff_eq]
      split_ifs with h1 h2 <;> (try simp_all) <;> omega

/-- C5: with the default window of 10 frames and majority fraction 3/5, if
an exercise e holds at least 6 of the 10 slots of the classifier history
and a single frame's instantaneous winner differs from e, currentExercise
stays e; and in general currentExercise switches only when the incoming
winner occupies at least the majority fraction of the updated window. -/
theorem classifier_window_stability
    (cfg : EngineConfig) (hist : List ExerciseType) (e instant : ExerciseType)
    (hwin : cfg.windowSize = 10) (hfrac : cfg.majorityFrac = mkRat 3 5)
    (hlen : hist.length = 10) (hcnt : 6 ≤ hist.count e) (hne : instant ≠ e) :
    (smoothStep cfg hist e instant).2 = e
    ∧ (∀ hist2 cur2 inst2, (smoothStep cfg hist2 cur2 inst2).2 ≠ cur2 →
        cfg.majorityFrac * (cfg.windowSize : ℚ)
          ≤ (((inst2 :: hist2).take cfg.windowSize).count inst2 : ℚ)) := by
  constructor
  · have htake : (instant :: hist).take cfg.windowSize = instant :: hist.take 9 := by
      rw [hwin, show (10 : ℕ) = 9 + 1 from rfl, List.take_succ_cons]
    have hc1 : (instant :: hist.take 9).count instant
        = (hist.take 9).count instant + 1 := by
      simp [List.count_cons]
    have hlen9 : (hist.take 9).length = 9 := by
      rw [List.length_take, hlen]; omega
    have hd : (hist.drop 9).length = 1 := by
      rw [List.length_drop, hlen]
    have hsplit : (hist.take 9).count e + (hist.drop 9).count e = hist.count e := by
      rw [← List.count_append, List.take_append_drop]
    have hdropcount : (hist.drop 9).count e ≤ 1 :=
      le_trans (List.count_le_length _ _) (le_of_eq hd)
    have hpair := count_pair_le instant e hne (hist.take 9)
    have hcount5 : (instant :: hist.take 9).count instant ≤ 5 := by omega
    have hcastle : (((instant :: hist.take 9).count instant : ℕ) : ℚ) ≤ 5 := by
      exact_mod_cast hcount5
    have h6 : cfg.majorityFrac * ((cfg.windowSize : ℕ) : ℚ) = 6 := by
      rw [hfrac, hwin]; norm_num [Rat.mkRat_eq_div]
    simp only [smoothStep, htake]
    rw [if_neg]
    intro hand
    have hle := hand.2
    linarith
  · intro hist2 cur2 inst2 hne2
    simp only [smoothStep] at hne2
    by_cases hcond : inst2 ≠ cur2
        ∧ cfg.majorityFrac * (cfg.windowSize : ℚ)
            ≤ (((inst2 :: hist2).take cfg.windowSize).count inst2 : ℚ)
    · exact hcond.2
    · rw [if_neg hcond] at hne2
      exact absurd rfl hne2

theorem classifier_window_stability_witness :
    (smoothStep defaultConfig squatHeavyHistory
      ExerciseType.Squat ExerciseType.Pushup).2 = ExerciseType.Squat :=
  (classifier_window_stability defaultConfig squatHeavyHistory
    ExerciseType.Squat ExerciseType.Pushup rfl rfl (by decide) (by decide)
    (by decide)).1

/-- C7 (counterexample): the claim that every keypoint coordinate is output
as alpha * raw + (1 - alpha) * previousSmoothed is false as stated: a
keypoint with confidence 0.1, below the default drop threshold 0.3, is
held at the previous smoothed value (here 0) instead of the blend
(here 0.5 * 10 + 0.5 * 0 = 5). -/
theorem filter_lowconf_not_blended_cex :
    (mkRat 1 10) < defaultConfig.confThreshold
    ∧ (filterKeypoint defaultConfig kneeFilterState
        ⟨JointName.knee, 10, 10, mkRat 1 10⟩).1.x
      ≠ defaultConfig.alpha * 10 + (1 - defaultConfig.alpha) * 0 := by
  with_unfolding_all decide

/-- C7 (amended): for every keypoint whose confidence is at least the drop
threshold and for which a previous smoothed entry is persisted, the
filter's output is alpha * raw + (1 - alpha) * previousSmoothed in each
coordinate, that blended value is persisted as the new filter state for
the keypoint's name, and the filter state is cleared (no entry for any
name) by session reset. -/
theorem filter_blend_highconf (cfg : EngineConfig) (st : FilterState)
    (k : Keypoint) (prev : FilterEntry) (s : SessionState)
    (hst : st k.name = some prev)
    (hconf : ¬ k.confidence < cfg.confThreshold) :
    (filterKeypoint cfg st k).1.x = cfg.alpha * k.x + (1 - cfg.alpha) * prev.x
    ∧ (filterKeypoint cfg st k).1.y = cfg.alpha * k.y + (1 - cfg.alpha) * prev.y
    ∧ (filterKeypoint cfg st k).2
      = ⟨cfg.alpha * k.x + (1 - cfg.alpha) * prev.x,
         cfg.alpha * k.y + (1 - cfg.alpha) * prev.y, k.confidence⟩
    ∧ (∀ n, (resetSession s).filterState n = none) := by
  unfold filterKeypoint
  rw [hst]
  dsimp only
  rw [if_neg hconf]
  exact ⟨rfl, rfl, rfl, fun _ => rfl⟩

theorem filter_blend_highconf_witness :
    (filterKeypoint defaultConfig kneeFilterState
      ⟨JointName.knee, 10, 10, 1⟩).1.x = 5 :=
  ((filter_blend_highconf defaultConfig kneeFilterState
      ⟨JointName.knee, 10, 10, 1⟩ ⟨0, 0, 1⟩ initialSession
      (by with_unfolding_all decide) (by with_unfolding_all decide)).1).trans
    (by with_unfolding_all decide)

theorem captureFrameStep_facts (last : ℚ) (env : FrameEnv) :
    ((captureFrameStep last env).onFrameCalled = true →
      (captureFrameStep last env).lastFrameTime = env.timestamp
      ∧ frameDuration ≤ env.timestamp - last)
    ∧ ((captureFrameStep last env).lastFrameTime = last
      ∨ ((captureFrameStep last env).lastFrameTime = env.timestamp
          ∧ frameDuration ≤ env.timestamp - last)) := by
  unfold captureFrameStep
  split_ifs <;> simp_all

theorem runCapture_spacing_aux (envs : List FrameEnv) : ∀ last : ℚ,
    List.Chain' (fun a b => frameDuration ≤ b - a) (runCapture last envs)
    ∧ (∀ t ∈ (runCapture last envs).head?, frameDuration ≤ t - last) := by
  have hdur0 : (0 : ℚ) ≤ frameDuration := by norm_num [frameDuration]
  induction envs with
  | nil => intro last; exact ⟨List.chain'_nil, by simp [runCapture]⟩
  | cons env envs ih =>
      intro last
      have hfacts := captureFrameStep_facts last env
      simp only [runCapture]
      rcases hco : captureFrameStep last env with ⟨oc, rs, lt⟩
      rw [hco] at hfacts
      simp only at hfacts
      cases oc <;> cases rs <;> simp only [if_true, if_false, Bool.false_eq_true,
        Bool.true_eq_false, ite_true, ite_false]
      · exact ⟨List.chain'_nil, by simp⟩
      · rcases hfacts.2 with hlt | ⟨hlt, hge⟩
        · subst hlt
          exact ⟨(ih lt).1, (ih lt).2⟩
        · subst hlt
          refine ⟨(ih env.timestamp).1, fun t ht => ?_⟩
          have := (ih env.timestamp).2 t ht
          linarith
      · rcases hfacts.1 rfl with ⟨hlt, hge⟩
        exact ⟨List.chain'_singleton _, by simpa using hge⟩
      · rcases hfacts.1 rfl with ⟨hlt, hge⟩
        subst hlt
        refine ⟨List.Chain'.cons' (ih env.timestamp).1
          (fun y hy => (ih env.timestamp).2 y hy), ?_⟩
        intro t ht
        simp only [List.head?_cons, Option.mem_def, Option.some.injEq] at ht
        subst ht
        exact hge

/-- C8: in the capture loop of WebcamView, the animation-frame timestamps
of consecutive onFrame invocations always differ by at least
frameDuration = 1000/30 milliseconds — onFrame is never invoked twice
within one 1/30-second interval, whatever the frame environments and the
initial lastFrameTime. -/
theorem capture_onframe_min_spacing (envs : List FrameEnv) (last : ℚ) :
    List.Chain' (fun a b => frameDuration ≤ b - a) (runCapture last envs) :=
  (runCapture_spacing_aux envs last).1

/-- C9: when getUserMedia rejects, setupCamera terminates normally (it is a
total function of the rejection) with hasPermission set to false and
isLoading set to false, and the frame-capture effect never runs for that
attempt — no onFrame invocation is delivered. -/
theorem setupCamera_rejection_graceful (err : String) (vp : Bool)
    (st : CamState) (onF v c : Bool) (envs : List FrameEnv) :
    (setupCamera true (Except.error err) vp st).hasPermission = some false
    ∧ (setupCamera true (Except.error err) vp st).isLoading = false
    ∧ framesDelivered true (setupCamera true (Except.error err) vp st)
        onF v c envs = [] :=
  ⟨rfl, rfl, rfl⟩

/-- C10: captureFrame never dereferences a null reference — with the video
ref, the canvas ref, or the 2d context null it returns without calling
onFrame — and an exception thrown while drawing or reading the frame is
caught, so the invocation still schedules the next animation frame and the
capture loop survives the bad frame. -/
theorem captureFrame_null_guard_and_catch (last : ℚ) (env : FrameEnv) :
    ((env.videoPresent = false ∨ env.canvasPresent = false
        ∨ env.ctxAvailable = false) →
      (captureFrameStep last env).onFrameCalled = false)
    ∧ (env.videoPresent = true → env.canvasPresent = true →
        env.ctxAvailable = true → env.drawThrows = true →
        (captureFrameStep last env).onFrameCalled = false
        ∧ (captureFrameStep last env).rescheduled = true) := by
  unfold captureFrameStep
  constructor
  · rintro (h | h | h) <;> split_ifs <;> simp_all
  · intro hv hc hx hd
    split_ifs <;> simp_all

theorem captureFrame_null_guard_and_catch_witness :
    (captureFrameStep 0 ⟨false, true, true, false, 100⟩).onFrameCalled = false
    ∧ (captureFrameStep 0 ⟨true, true, true, true, 100⟩).onFrameCalled = false
    ∧ (captureFrameStep 0 ⟨true, true, true, true, 100⟩).rescheduled = true :=
  ⟨(captureFrame_null_guard_and_catch 0 ⟨false, true, true, false, 100⟩).1
      (Or.inl rfl),
   ((captureFrame_null_guard_and_catch 0 ⟨true, true, true, true, 100⟩).2
      rfl rfl rfl rfl).1,
   ((captureFrame_null_guard_and_catch 0 ⟨true, true, true, true, 100⟩).2
      rfl rfl rfl rfl).2⟩
